import Mathlib

/-!
# Verification of the go-libp2p-daemon control protocol and startup logic

This development embeds, in Lean 4, the parts of the `go-libp2p-daemon`
repository needed to check its natural-language specification:

* the protobuf schema `pb/p2pd.proto` (messages `Request`, `Response`,
  `DHTRequest`, `DHTResponse`, …) as Lean structures, together with a
  proto2 wire codec (varint framing, tag/wire-type field records,
  length-delimited submessages) modelled from the spec's Framing Codec
  section — the generated Go codec itself is not part of the repository;
* the daemon entrypoint `p2pd/main.go` (flag handling, config assembly,
  security-protocol selection, key generation, daemon construction) as an
  explicit startup state machine;
* the request dispatcher / DHT response streamer, which live outside the
  two source files of the repository, modelled from the spec.

Bytes are modelled as `Nat` (values `< 256` in any real byte stream;
the codec proofs track where that bound matters). proto2 `string` fields
are modelled by their byte payloads: on the wire a string field is a
length-delimited byte run exactly like a `bytes` field.
-/

namespace P2pd

/-! ## Varint layer

proto2 base-128 varints: little-endian 7-bit groups, most significant bit
of each byte set on all but the last group. -/

/-- Worker for `varintEncode`, structurally recursive on a fuel bound so
that encodings compute by kernel reduction.  Fuel at least `n` always
suffices; the fuel-exhausted fallback is unreachable then. -/
def varintEncodeAux (fuel n : Nat) : List Nat :=
  match fuel with
  | 0 => [n % 128]
  | fuel + 1 =>
    if n < 128 then [n] else (n % 128 + 128) :: varintEncodeAux fuel (n / 128)

theorem varintEncodeAux_congr (n : Nat) :
    ∀ f1 f2, n ≤ f1 → n ≤ f2 → varintEncodeAux f1 n = varintEncodeAux f2 n := by
  induction n using Nat.strong_induction_on with
  | _ n ih =>
    intro f1 f2 h1 h2
    match f1, f2 with
    | 0, 0 => rfl
    | 0, g + 1 =>
      interval_cases n
      rfl
    | f + 1, 0 =>
      interval_cases n
      rfl
    | f + 1, g + 1 =>
      simp only [varintEncodeAux]
      split
      · rfl
      · next h =>
        have hdiv : n / 128 < n := Nat.div_lt_self (by omega) (by omega)
        rw [ih (n / 128) hdiv f g (by omega) (by omega)]

/-- Encode a natural number as a base-128 varint byte list. -/
def varintEncode (n : Nat) : List Nat := varintEncodeAux n n

/-- The defining recurrence of the varint encoder. -/
theorem varintEncode_eq (n : Nat) :
    varintEncode n
      = if n < 128 then [n] else (n % 128 + 128) :: varintEncode (n / 128) := by
  unfold varintEncode
  match n with
  | 0 => rfl
  | m + 1 =>
    simp only [varintEncodeAux]
    split
    · rfl
    · next h =>
      have hdiv : (m + 1) / 128 < m + 1 := Nat.div_lt_self (by omega) (by omega)
      rw [varintEncodeAux_congr ((m + 1) / 128) m ((m + 1) / 128) (by omega)
        (by omega)]

/-- Decode a base-128 varint from the front of a byte list, returning the
value and the unconsumed tail. -/
def varintDecode : List Nat → Option (Nat × List Nat)
  | [] => none
  | b :: bs =>
    if b < 128 then some (b, bs)
    else
      match varintDecode bs with
      | some (n, rest) => some ((b - 128) + 128 * n, rest)
      | none => none

theorem varintEncode_ne_nil (n : Nat) : varintEncode n ≠ [] := by
  rw [varintEncode_eq]
  split <;> simp

theorem varintEncode_length_pos (n : Nat) : 0 < (varintEncode n).length := by
  cases h : varintEncode n with
  | nil => exact absurd h (varintEncode_ne_nil n)
  | cons a l => simp

/-- Decoding an encoded varint returns the value and leaves the trailing
bytes untouched. -/
theorem varintDecode_encode (n : Nat) (rest : List Nat) :
    varintDecode (varintEncode n ++ rest) = some (n, rest) := by
  induction n using Nat.strong_induction_on with
  | _ n ih =>
    rw [varintEncode_eq]
    split
    · next h =>
      simp [varintDecode, h]
    · next h =>
      have hdiv : n / 128 < n := Nat.div_lt_self (by omega) (by omega)
      have hrec := ih (n / 128) hdiv
      simp only [List.cons_append, varintDecode, List.append_eq]
      rw [if_neg (by omega)]
      rw [hrec]
      have hsum : n % 128 + 128 * (n / 128) = n := Nat.mod_add_div n 128
      simp [hsum]

/-- Every byte an encoder produces is a valid byte value. -/
theorem varintEncode_lt_256 (n : Nat) : ∀ b ∈ varintEncode n, b < 256 := by
  induction n using Nat.strong_induction_on with
  | _ n ih =>
    rw [varintEncode_eq]
    split
    · next h => intro b hb; simp at hb; omega
    · next h =>
      intro b hb
      simp only [List.mem_cons] at hb
      rcases hb with hb | hb
      · have : n % 128 < 128 := Nat.mod_lt _ (by omega)
        omega
      · exact ih (n / 128) (Nat.div_lt_self (by omega) (by omega)) b hb

/-! ## Wire field layer

A proto2 message body is a sequence of field records, each a tag varint
`fieldNumber * 8 + wireType` followed by the payload.  The schema in
`pb/p2pd.proto` uses only wire types 0 (varint: enums, int32, int64) and
2 (length-delimited: bytes, string, embedded messages). -/

/-- A decoded wire value: either a varint scalar or a length-delimited
byte run. -/
inductive WireValue : Type
  | varint (n : Nat)
  | lengthDelimited (bs : List Nat)
deriving DecidableEq, Repr

/-- Encode one field record: tag varint, then payload. -/
def encodeField : Nat × WireValue → List Nat
  | (num, .varint v) => varintEncode (num * 8) ++ varintEncode v
  | (num, .lengthDelimited bs) =>
      varintEncode (num * 8 + 2) ++ varintEncode bs.length ++ bs

/-- Encode a message body: concatenation of its field records. -/
def encodeFields (l : List (Nat × WireValue)) : List Nat :=
  (l.map encodeField).flatten

/-- Parse a message body into its field records. `fuel` bounds the number
of records; each record consumes at least one byte, so `bs.length` fuel
always suffices. -/
def parseFields : Nat → List Nat → Option (List (Nat × WireValue))
  | _, [] => some []
  | 0, _ :: _ => none
  | fuel + 1, b :: bs =>
    match varintDecode (b :: bs) with
    | none => none
    | some (key, r1) =>
      match key % 8 with
      | 0 =>
        match varintDecode r1 with
        | none => none
        | some (v, r2) =>
          match parseFields fuel r2 with
          | none => none
          | some restFields => some ((key / 8, .varint v) :: restFields)
      | 2 =>
        match varintDecode r1 with
        | none => none
        | some (len, r2) =>
          if len ≤ r2.length then
            match parseFields fuel (r2.drop len) with
            | none => none
            | some restFields =>
              some ((key / 8, .lengthDelimited (r2.take len)) :: restFields)
          else none
      | _ => none

theorem encodeField_length_pos (f : Nat × WireValue) : 0 < (encodeField f).length := by
  obtain ⟨num, wv⟩ := f
  cases wv with
  | varint v =>
    have := varintEncode_length_pos (num * 8)
    simp only [encodeField, List.length_append]
    omega
  | lengthDelimited bs =>
    have := varintEncode_length_pos (num * 8 + 2)
    simp only [encodeField, List.length_append]
    omega

/-- A message body has at least as many bytes as field records. -/
theorem length_le_encodeFields_length (l : List (Nat × WireValue)) :
    l.length ≤ (encodeFields l).length := by
  induction l with
  | nil => simp [encodeFields]
  | cons f t ih =>
    simp only [encodeFields, List.map_cons, List.flatten_cons, List.length_append,
      List.length_cons]
    have := encodeField_length_pos f
    have := ih
    simp only [encodeFields] at this
    omega

/-- Parsing an encoded message body recovers exactly its field records,
given fuel at least the number of records. -/
theorem parseFields_encodeFields (l : List (Nat × WireValue)) :
    ∀ fuel, l.length ≤ fuel → parseFields fuel (encodeFields l) = some l := by
  induction l with
  | nil =>
    intro fuel _
    simp [encodeFields, parseFields]
  | cons f t ih =>
    intro fuel hfuel
    obtain ⟨fuel', rfl⟩ : ∃ k, fuel = k + 1 := by
      cases fuel with
      | zero => simp at hfuel
      | succ k => exact ⟨k, rfl⟩
    obtain ⟨num, wv⟩ := f
    cases wv with
    | varint v =>
      have hbody : encodeFields ((num, .varint v) :: t)
          = varintEncode (num * 8) ++ (varintEncode v ++ encodeFields t) := by
        simp [encodeFields, encodeField]
      rw [hbody]
      obtain ⟨b0, bs0, hcons⟩ : ∃ b0 bs0,
          varintEncode (num * 8) ++ (varintEncode v ++ encodeFields t)
            = b0 :: bs0 := by
        cases h : varintEncode (num * 8) with
        | nil => exact absurd h (varintEncode_ne_nil _)
        | cons a l => exact ⟨a, l ++ (varintEncode v ++ encodeFields t), by simp [h]⟩
      rw [hcons]
      have hdec1 : varintDecode (b0 :: bs0) = some (num * 8, varintEncode v ++ encodeFields t) := by
        rw [← hcons]; exact varintDecode_encode _ _
      simp only [parseFields]
      rw [hdec1]
      have hmod : (num * 8) % 8 = 0 := by omega
      simp only [hmod]
      rw [varintDecode_encode]
      simp only []
      rw [ih fuel' (by simpa using hfuel)]
      have hdivn : num * 8 / 8 = num := by omega
      simp [hdivn]
    | lengthDelimited pl =>
      have hbody : encodeFields ((num, .lengthDelimited pl) :: t)
          = varintEncode (num * 8 + 2)
            ++ (varintEncode pl.length ++ (pl ++ encodeFields t)) := by
        simp [encodeFields, encodeField]
      rw [hbody]
      obtain ⟨b0, bs0, hcons⟩ : ∃ b0 bs0,
          varintEncode (num * 8 + 2)
            ++ (varintEncode pl.length ++ (pl ++ encodeFields t)) = b0 :: bs0 := by
        cases h : varintEncode (num * 8 + 2) with
        | nil => exact absurd h (varintEncode_ne_nil _)
        | cons a l =>
          exact ⟨a, l ++ (varintEncode pl.length ++ (pl ++ encodeFields t)), by simp [h]⟩
      rw [hcons]
      have hdec1 : varintDecode (b0 :: bs0)
          = some (num * 8 + 2, varintEncode pl.length ++ (pl ++ encodeFields t)) := by
        rw [← hcons]; exact varintDecode_encode _ _
      simp only [parseFields]
      rw [hdec1]
      have hmod : (num * 8 + 2) % 8 = 2 := by omega
      simp only [hmod]
      rw [varintDecode_encode]
      simp only []
      have hle : pl.length ≤ (pl ++ encodeFields t).length := by simp
      rw [if_pos hle]
      rw [List.drop_left, List.take_left]
      rw [ih fuel' (by simpa using hfuel)]
      have hdivn : (num * 8 + 2) / 8 = num := by omega
      simp [hdivn]

/-! ## Integer wire representation

proto2 encodes `int32` and `int64` scalars as the 64-bit two's-complement
value in a varint; decoding reinterprets the low 32 (resp. 64) bits as a
signed integer. -/

/-- The varint payload of a signed integer: its value modulo `2^64`
(two's-complement sign extension to 64 bits). -/
def int64ToWire (v : Int) : Nat := (v % (2 ^ 64 : Int)).toNat

/-- Reinterpret a varint payload as a signed 32-bit value. -/
def wireToInt32 (n : Nat) : Int :=
  if n % 2 ^ 32 < 2 ^ 31 then ((n % 2 ^ 32 : Nat) : Int)
  else ((n % 2 ^ 32 : Nat) : Int) - 2 ^ 32

/-- Reinterpret a varint payload as a signed 64-bit value. -/
def wireToInt64 (n : Nat) : Int :=
  if n % 2 ^ 64 < 2 ^ 63 then ((n % 2 ^ 64 : Nat) : Int)
  else ((n % 2 ^ 64 : Nat) : Int) - 2 ^ 64

theorem wireToInt32_int64ToWire (v : Int)
    (h1 : -(2 ^ 31) ≤ v) (h2 : v < 2 ^ 31) :
    wireToInt32 (int64ToWire v) = v := by
  unfold wireToInt32 int64ToWire
  split <;> omega

theorem wireToInt64_int64ToWire (v : Int)
    (h1 : -(2 ^ 63) ≤ v) (h2 : v < 2 ^ 63) :
    wireToInt64 (int64ToWire v) = v := by
  unfold wireToInt64 int64ToWire
  split <;> omega

/-! ## Message data model (`pb/p2pd.proto`)

Each proto2 message becomes a structure whose `required` fields are plain
and whose `optional` fields are `Option`s, mirroring the generated Go
struct shape.  `bytes` and `string` payloads are byte lists. -/

/-- A byte string (each element `< 256` in a well-formed value). -/
abbrev Bytes := List Nat

/-- Enum `Request.Type`: the six request types. -/
inductive RequestType : Type
  | IDENTIFY
  | CONNECT
  | STREAM_OPEN
  | STREAM_HANDLER
  | DHT
  | LIST_PEERS
deriving DecidableEq, Repr, Fintype

def RequestType.toNat : RequestType → Nat
  | .IDENTIFY => 0
  | .CONNECT => 1
  | .STREAM_OPEN => 2
  | .STREAM_HANDLER => 3
  | .DHT => 4
  | .LIST_PEERS => 5

def RequestType.ofNat? : Nat → Option RequestType
  | 0 => some .IDENTIFY
  | 1 => some .CONNECT
  | 2 => some .STREAM_OPEN
  | 3 => some .STREAM_HANDLER
  | 4 => some .DHT
  | 5 => some .LIST_PEERS
  | _ => none

@[simp] theorem RequestType.ofNat?_toNat_requestType (t : RequestType) :
    RequestType.ofNat? t.toNat = some t := by cases t <;> rfl

/-- Enum `DHTRequest.Type`: the nine DHT operation kinds. -/
inductive DHTRequestType : Type
  | FIND_PEER
  | FIND_PEERS_CONNECTED_TO_PEER
  | FIND_PROVIDERS
  | GET_CLOSEST_PEERS
  | GET_PUBLIC_KEY
  | GET_VALUE
  | SEARCH_VALUE
  | PUT_VALUE
  | PROVIDE
deriving DecidableEq, Repr, Fintype

def DHTRequestType.toNat : DHTRequestType → Nat
  | .FIND_PEER => 0
  | .FIND_PEERS_CONNECTED_TO_PEER => 1
  | .FIND_PROVIDERS => 2
  | .GET_CLOSEST_PEERS => 3
  | .GET_PUBLIC_KEY => 4
  | .GET_VALUE => 5
  | .SEARCH_VALUE => 6
  | .PUT_VALUE => 7
  | .PROVIDE => 8

def DHTRequestType.ofNat? : Nat → Option DHTRequestType
  | 0 => some .FIND_PEER
  | 1 => some .FIND_PEERS_CONNECTED_TO_PEER
  | 2 => some .FIND_PROVIDERS
  | 3 => some .GET_CLOSEST_PEERS
  | 4 => some .GET_PUBLIC_KEY
  | 5 => some .GET_VALUE
  | 6 => some .SEARCH_VALUE
  | 7 => some .PUT_VALUE
  | 8 => some .PROVIDE
  | _ => none

@[simp] theorem DHTRequestType.ofNat?_toNat_dhtRequestType (t : DHTRequestType) :
    DHTRequestType.ofNat? t.toNat = some t := by cases t <;> rfl

/-- Enum `DHTResponse.Type`: stream element kinds. -/
inductive DHTResponseType : Type
  | BEGIN
  | VALUE
  | END
deriving DecidableEq, Repr, Fintype

/-- Enum `Response.Type`. -/
inductive ResponseType : Type
  | OK
  | ERROR
deriving DecidableEq, Repr, Fintype

/-- Message `ConnectRequest`: required peer (1), repeated addrs (2). -/
structure ConnectRequest : Type where
  peer : Bytes
  addrs : List Bytes
deriving DecidableEq, Repr

/-- Message `StreamOpenRequest`: required peer (1), repeated proto (2). -/
structure StreamOpenRequest : Type where
  peer : Bytes
  proto : List Bytes
deriving DecidableEq, Repr

/-- Message `StreamHandlerRequest`: required path (1), repeated proto (2). -/
structure StreamHandlerRequest : Type where
  path : Bytes
  proto : List Bytes
deriving DecidableEq, Repr

/-- Message `DHTRequest`: required type (1), optional peer (2), cid (3),
key (4), value (5), count (6, int32), timeout (7, int64). -/
structure DHTRequest : Type where
  type : DHTRequestType
  peer : Option Bytes
  cid : Option Bytes
  key : Option Bytes
  value : Option Bytes
  count : Option Int
  timeout : Option Int
deriving DecidableEq, Repr

/-- Message `Request`: required type (1), optional connect (2),
streamOpen (3), streamHandler (4), dht (5). -/
structure Request : Type where
  type : RequestType
  connect : Option ConnectRequest
  streamOpen : Option StreamOpenRequest
  streamHandler : Option StreamHandlerRequest
  dht : Option DHTRequest
deriving DecidableEq, Repr

/-- Message `ErrorResponse`: required msg (1, string). -/
structure ErrorResponse : Type where
  msg : Bytes
deriving DecidableEq, Repr

/-- Message `StreamInfo`: required peer (1), addr (2), proto (3). -/
structure StreamInfo : Type where
  peer : Bytes
  addr : Bytes
  proto : Bytes
deriving DecidableEq, Repr

/-- Message `IdentifyResponse`: required id (1), repeated addrs (2). -/
structure IdentifyResponse : Type where
  id : Bytes
  addrs : List Bytes
deriving DecidableEq, Repr

/-- Message `PeerInfo`: required id (1), repeated addrs (2). -/
structure PeerInfo : Type where
  id : Bytes
  addrs : List Bytes
deriving DecidableEq, Repr

/-- Message `DHTResponse`: required type (1), optional peer (2),
optional value (3). -/
structure DHTResponse : Type where
  type : DHTResponseType
  peer : Option PeerInfo
  value : Option Bytes
deriving DecidableEq, Repr

/-- Message `Response`: required type (1), optional error (2),
streamInfo (3), identify (4), dht (5), repeated peers (6). -/
structure Response : Type where
  type : ResponseType
  error : Option ErrorResponse
  streamInfo : Option StreamInfo
  identify : Option IdentifyResponse
  dht : Option DHTResponse
  peers : List PeerInfo
deriving DecidableEq, Repr

/-! ## Field-list encoders

The canonical encoder emits present fields in field-number order, exactly
as the generated Go marshaller does. -/

/-- Field records of an optional length-delimited field: nothing when
absent, one record when present. -/
def optMsgField (num : Nat) : Option Bytes → List (Nat × WireValue)
  | none => []
  | some bs => [(num, .lengthDelimited bs)]

/-- Field records of an optional varint field. -/
def optVarintField (num : Nat) : Option Nat → List (Nat × WireValue)
  | none => []
  | some v => [(num, .varint v)]

/-- Field records of a repeated `bytes`/`string` field, in element order. -/
def repBytesFields (num : Nat) (l : List Bytes) : List (Nat × WireValue) :=
  l.map fun bs => (num, .lengthDelimited bs)

/-! ## ConnectRequest codec -/

/-- The wire field records of a `ConnectRequest`. -/
def ConnectRequest.fields (r : ConnectRequest) : List (Nat × WireValue) :=
  [(1, .lengthDelimited r.peer)] ++ repBytesFields 2 r.addrs

/-- Serialize a `ConnectRequest` message body. -/
def ConnectRequest.encode (r : ConnectRequest) : List Nat :=
  encodeFields r.fields

/-- Decoder state while folding over a `ConnectRequest`'s field records. -/
structure ConnectRequestBuilder : Type where
  peer : Option Bytes := none
  addrs : List Bytes := []

/-- Apply one field record: required scalars overwrite, repeated fields
append (proto2 merge semantics on single-occurrence canonical input). -/
def ConnectRequestBuilder.step (b : ConnectRequestBuilder) :
    Nat × WireValue → Option ConnectRequestBuilder
  | (1, .lengthDelimited bs) => some { b with peer := some bs }
  | (2, .lengthDelimited bs) => some { b with addrs := b.addrs ++ [bs] }
  | _ => none

/-- Assemble a `ConnectRequest` from parsed field records, rejecting a
missing required `peer` field. -/
def ConnectRequest.fromFields (l : List (Nat × WireValue)) :
    Option ConnectRequest := do
  let b ← l.foldlM ConnectRequestBuilder.step {}
  match b.peer with
  | some p => pure ⟨p, b.addrs⟩
  | none => none

/-- Parse a `ConnectRequest` message body. -/
def ConnectRequest.decode (bs : List Nat) : Option ConnectRequest :=
  (parseFields bs.length bs).bind ConnectRequest.fromFields

theorem ConnectRequestBuilder.foldlM_rep_addrs (addrs : List Bytes)
    (b : ConnectRequestBuilder) :
    (repBytesFields 2 addrs).foldlM ConnectRequestBuilder.step b
      = some { b with addrs := b.addrs ++ addrs } := by
  induction addrs generalizing b with
  | nil => simp [repBytesFields]
  | cons a t ih =>
    simp [repBytesFields, ConnectRequestBuilder.step] at ih ⊢
    simp [ih]

theorem ConnectRequest.fromFields_fields_connect (r : ConnectRequest) :
    ConnectRequest.fromFields r.fields = some r := by
  obtain ⟨p, a⟩ := r
  simp [ConnectRequest.fromFields, ConnectRequest.fields, ConnectRequestBuilder.step,
    ConnectRequestBuilder.foldlM_rep_addrs]

/-- Round trip: decoding an encoded `ConnectRequest` recovers it. -/
theorem ConnectRequest.decode_encode_connect (r : ConnectRequest) :
    ConnectRequest.decode (ConnectRequest.encode r) = some r := by
  unfold ConnectRequest.decode ConnectRequest.encode
  rw [parseFields_encodeFields r.fields _
    (Nat.le_trans (Nat.le_refl _) (length_le_encodeFields_length _))]
  simpa using ConnectRequest.fromFields_fields_connect r

/-! ## StreamOpenRequest codec -/

/-- The wire field records of a `StreamOpenRequest`. -/
def StreamOpenRequest.fields (r : StreamOpenRequest) : List (Nat × WireValue) :=
  [(1, .lengthDelimited r.peer)] ++ repBytesFields 2 r.proto

/-- Serialize a `StreamOpenRequest` message body. -/
def StreamOpenRequest.encode (r : StreamOpenRequest) : List Nat :=
  encodeFields r.fields

/-- Decoder state while folding over a `StreamOpenRequest`'s field records. -/
structure StreamOpenRequestBuilder : Type where
  peer : Option Bytes := none
  proto : List Bytes := []

def StreamOpenRequestBuilder.step (b : StreamOpenRequestBuilder) :
    Nat × WireValue → Option StreamOpenRequestBuilder
  | (1, .lengthDelimited bs) => some { b with peer := some bs }
  | (2, .lengthDelimited bs) => some { b with proto := b.proto ++ [bs] }
  | _ => none

/-- Assemble a `StreamOpenRequest`, rejecting a missing required `peer`. -/
def StreamOpenRequest.fromFields (l : List (Nat × WireValue)) :
    Option StreamOpenRequest := do
  let b ← l.foldlM StreamOpenRequestBuilder.step {}
  match b.peer with
  | some p => pure ⟨p, b.proto⟩
  | none => none

/-- Parse a `StreamOpenRequest` message body. -/
def StreamOpenRequest.decode (bs : List Nat) : Option StreamOpenRequest :=
  (parseFields bs.length bs).bind StreamOpenRequest.fromFields

theorem StreamOpenRequestBuilder.foldlM_rep_soProto (protos : List Bytes)
    (b : StreamOpenRequestBuilder) :
    (repBytesFields 2 protos).foldlM StreamOpenRequestBuilder.step b
      = some { b with proto := b.proto ++ protos } := by
  induction protos generalizing b with
  | nil => simp [repBytesFields]
  | cons a t ih =>
    simp [repBytesFields, StreamOpenRequestBuilder.step] at ih ⊢
    simp [ih]

theorem StreamOpenRequest.fromFields_fields_streamOpen (r : StreamOpenRequest) :
    StreamOpenRequest.fromFields r.fields = some r := by
  obtain ⟨p, a⟩ := r
  simp [StreamOpenRequest.fromFields, StreamOpenRequest.fields,
    StreamOpenRequestBuilder.step, StreamOpenRequestBuilder.foldlM_rep_soProto]

/-- Round trip: decoding an encoded `StreamOpenRequest` recovers it. -/
theorem StreamOpenRequest.decode_encode_streamOpen (r : StreamOpenRequest) :
    StreamOpenRequest.decode (StreamOpenRequest.encode r) = some r := by
  unfold StreamOpenRequest.decode StreamOpenRequest.encode
  rw [parseFields_encodeFields r.fields _ (length_le_encodeFields_length _)]
  simpa using StreamOpenRequest.fromFields_fields_streamOpen r

/-! ## StreamHandlerRequest codec -/

/-- The wire field records of a `StreamHandlerRequest`. -/
def StreamHandlerRequest.fields (r : StreamHandlerRequest) :
    List (Nat × WireValue) :=
  [(1, .lengthDelimited r.path)] ++ repBytesFields 2 r.proto

/-- Serialize a `StreamHandlerRequest` message body. -/
def StreamHandlerRequest.encode (r : StreamHandlerRequest) : List Nat :=
  encodeFields r.fields

/-- Decoder state while folding over a `StreamHandlerRequest`'s records. -/
structure StreamHandlerRequestBuilder : Type where
  path : Option Bytes := none
  proto : List Bytes := []

def StreamHandlerRequestBuilder.step (b : StreamHandlerRequestBuilder) :
    Nat × WireValue → Option StreamHandlerRequestBuilder
  | (1, .lengthDelimited bs) => some { b with path := some bs }
  | (2, .lengthDelimited bs) => some { b with proto := b.proto ++ [bs] }
  | _ => none

/-- Assemble a `StreamHandlerRequest`, rejecting a missing required `path`. -/
def StreamHandlerRequest.fromFields (l : List (Nat × WireValue)) :
    Option StreamHandlerRequest := do
  let b ← l.foldlM StreamHandlerRequestBuilder.step {}
  match b.path with
  | some p => pure ⟨p, b.proto⟩
  | none => none

/-- Parse a `StreamHandlerRequest` message body. -/
def StreamHandlerRequest.decode (bs : List Nat) : Option StreamHandlerRequest :=
  (parseFields bs.length bs).bind StreamHandlerRequest.fromFields

theorem StreamHandlerRequestBuilder.foldlM_rep_shProto (protos : List Bytes)
    (b : StreamHandlerRequestBuilder) :
    (repBytesFields 2 protos).foldlM StreamHandlerRequestBuilder.step b
      = some { b with proto := b.proto ++ protos } := by
  induction protos generalizing b with
  | nil => simp [repBytesFields]
  | cons a t ih =>
    simp [repBytesFields, StreamHandlerRequestBuilder.step] at ih ⊢
    simp [ih]

theorem StreamHandlerRequest.fromFields_fields_streamHandler (r : StreamHandlerRequest) :
    StreamHandlerRequest.fromFields r.fields = some r := by
  obtain ⟨p, a⟩ := r
  simp [StreamHandlerRequest.fromFields, StreamHandlerRequest.fields,
    StreamHandlerRequestBuilder.step, StreamHandlerRequestBuilder.foldlM_rep_shProto]

/-- Round trip: decoding an encoded `StreamHandlerRequest` recovers it. -/
theorem StreamHandlerRequest.decode_encode_streamHandler (r : StreamHandlerRequest) :
    StreamHandlerRequest.decode (StreamHandlerRequest.encode r) = some r := by
  unfold StreamHandlerRequest.decode StreamHandlerRequest.encode
  rw [parseFields_encodeFields r.fields _ (length_le_encodeFields_length _)]
  simpa using StreamHandlerRequest.fromFields_fields_streamHandler r

/-! ## DHTRequest codec -/

/-- A byte string whose elements are actual byte values. -/
def bytesValid (b : Bytes) : Bool := b.all (· < 256)

/-- Range check for `int32`. -/
def intInRange32 (c : Int) : Bool := decide (-(2 ^ 31) ≤ c) && decide (c < 2 ^ 31)

/-- Range check for `int64`. -/
def intInRange64 (c : Int) : Bool := decide (-(2 ^ 63) ≤ c) && decide (c < 2 ^ 63)

/-- A `DHTRequest` value is valid when its byte fields hold bytes and its
`count`/`timeout` fit `int32`/`int64`: exactly the values representable by
the generated Go struct. -/
def DHTRequest.valid (r : DHTRequest) : Bool :=
  r.peer.all bytesValid && r.cid.all bytesValid && r.key.all bytesValid
    && r.value.all bytesValid && r.count.all intInRange32
    && r.timeout.all intInRange64

/-- The wire field records of a `DHTRequest`, in field-number order. -/
def DHTRequest.fields (r : DHTRequest) : List (Nat × WireValue) :=
  [(1, .varint r.type.toNat)]
    ++ optMsgField 2 r.peer ++ optMsgField 3 r.cid ++ optMsgField 4 r.key
    ++ optMsgField 5 r.value
    ++ optVarintField 6 (r.count.map int64ToWire)
    ++ optVarintField 7 (r.timeout.map int64ToWire)

/-- Serialize a `DHTRequest` message body. -/
def DHTRequest.encode (r : DHTRequest) : List Nat :=
  encodeFields r.fields

/-- Decoder state while folding over a `DHTRequest`'s field records. -/
structure DHTRequestBuilder : Type where
  type? : Option Nat := none
  peer : Option Bytes := none
  cid : Option Bytes := none
  key : Option Bytes := none
  value : Option Bytes := none
  count : Option Int := none
  timeout : Option Int := none

def DHTRequestBuilder.step (b : DHTRequestBuilder) :
    Nat × WireValue → Option DHTRequestBuilder
  | (1, .varint v) => some { b with type? := some v }
  | (2, .lengthDelimited bs) => some { b with peer := some bs }
  | (3, .lengthDelimited bs) => some { b with cid := some bs }
  | (4, .lengthDelimited bs) => some { b with key := some bs }
  | (5, .lengthDelimited bs) => some { b with value := some bs }
  | (6, .varint v) => some { b with count := some (wireToInt32 v) }
  | (7, .varint v) => some { b with timeout := some (wireToInt64 v) }
  | _ => none

/-- Assemble a `DHTRequest`, rejecting a missing required `type` or an
out-of-range enum value. -/
def DHTRequest.fromFields (l : List (Nat × WireValue)) : Option DHTRequest := do
  let b ← l.foldlM DHTRequestBuilder.step {}
  match b.type? with
  | some v =>
    match DHTRequestType.ofNat? v with
    | some t => pure ⟨t, b.peer, b.cid, b.key, b.value, b.count, b.timeout⟩
    | none => none
  | none => none

/-- Parse a `DHTRequest` message body. -/
def DHTRequest.decode (bs : List Nat) : Option DHTRequest :=
  (parseFields bs.length bs).bind DHTRequest.fromFields

theorem DHTRequestBuilder.fold_peer (o : Option Bytes) (b : DHTRequestBuilder)
    (hb : b.peer = none) :
    (optMsgField 2 o).foldlM DHTRequestBuilder.step b
      = some { b with peer := o } := by
  cases o with
  | none =>
    obtain ⟨t, p, c, k, v, co, ti⟩ := b
    simp only at hb
    simp [optMsgField, hb]
  | some bs => simp [optMsgField, DHTRequestBuilder.step]

theorem DHTRequestBuilder.fold_cid (o : Option Bytes) (b : DHTRequestBuilder)
    (hb : b.cid = none) :
    (optMsgField 3 o).foldlM DHTRequestBuilder.step b
      = some { b with cid := o } := by
  cases o with
  | none =>
    obtain ⟨t, p, c, k, v, co, ti⟩ := b
    simp only at hb
    simp [optMsgField, hb]
  | some bs => simp [optMsgField, DHTRequestBuilder.step]

theorem DHTRequestBuilder.fold_key (o : Option Bytes) (b : DHTRequestBuilder)
    (hb : b.key = none) :
    (optMsgField 4 o).foldlM DHTRequestBuilder.step b
      = some { b with key := o } := by
  cases o with
  | none =>
    obtain ⟨t, p, c, k, v, co, ti⟩ := b
    simp only at hb
    simp [optMsgField, hb]
  | some bs => simp [optMsgField, DHTRequestBuilder.step]

theorem DHTRequestBuilder.fold_value (o : Option Bytes) (b : DHTRequestBuilder)
    (hb : b.value = none) :
    (optMsgField 5 o).foldlM DHTRequestBuilder.step b
      = some { b with value := o } := by
  cases o with
  | none =>
    obtain ⟨t, p, c, k, v, co, ti⟩ := b
    simp only at hb
    simp [optMsgField, hb]
  | some bs => simp [optMsgField, DHTRequestBuilder.step]

theorem DHTRequestBuilder.fold_count (o : Option Int) (b : DHTRequestBuilder)
    (hb : b.count = none) (ho : o.all intInRange32 = true) :
    (optVarintField 6 (o.map int64ToWire)).foldlM DHTRequestBuilder.step b
      = some { b with count := o } := by
  cases o with
  | none =>
    obtain ⟨t, p, c, k, v, co, ti⟩ := b
    simp only at hb
    simp [optVarintField, hb]
  | some c =>
    simp only [Option.all_some, intInRange32, Bool.and_eq_true,
      decide_eq_true_eq] at ho
    simp [optVarintField, DHTRequestBuilder.step,
      wireToInt32_int64ToWire c ho.1 ho.2]

theorem DHTRequestBuilder.fold_timeout (o : Option Int) (b : DHTRequestBuilder)
    (hb : b.timeout = none) (ho : o.all intInRange64 = true) :
    (optVarintField 7 (o.map int64ToWire)).foldlM DHTRequestBuilder.step b
      = some { b with timeout := o } := by
  cases o with
  | none =>
    obtain ⟨t, p, c, k, v, co, ti⟩ := b
    simp only at hb
    simp [optVarintField, hb]
  | some c =>
    simp only [Option.all_some, intInRange64, Bool.and_eq_true,
      decide_eq_true_eq] at ho
    simp [optVarintField, DHTRequestBuilder.step,
      wireToInt64_int64ToWire c ho.1 ho.2]

theorem DHTRequest.fromFields_fields_dht (r : DHTRequest) (h : r.valid = true) :
    DHTRequest.fromFields r.fields = some r := by
  obtain ⟨t, peer, cid, key, value, count, timeout⟩ := r
  simp only [DHTRequest.valid, Bool.and_eq_true] at h
  obtain ⟨⟨⟨⟨⟨_, _⟩, _⟩, _⟩, hco⟩, hti⟩ := h
  unfold DHTRequest.fields DHTRequest.fromFields
  simp only [List.foldlM_append, List.foldlM_cons, List.foldlM_nil]
  simp only [DHTRequestBuilder.step, Option.bind_eq_bind, Option.some_bind,
    Option.pure_def]
  rw [DHTRequestBuilder.fold_peer _ _ rfl]
  simp only [Option.some_bind]
  rw [DHTRequestBuilder.fold_cid _ _ rfl]
  simp only [Option.some_bind]
  rw [DHTRequestBuilder.fold_key _ _ rfl]
  simp only [Option.some_bind]
  rw [DHTRequestBuilder.fold_value _ _ rfl]
  simp only [Option.some_bind]
  rw [DHTRequestBuilder.fold_count _ _ rfl hco]
  simp only [Option.some_bind]
  rw [DHTRequestBuilder.fold_timeout _ _ rfl hti]
  simp only [Option.some_bind]
  simp

/-- Round trip: decoding an encoded valid `DHTRequest` recovers it. -/
theorem DHTRequest.decode_encode_dht (r : DHTRequest) (h : r.valid = true) :
    DHTRequest.decode (DHTRequest.encode r) = some r := by
  unfold DHTRequest.decode DHTRequest.encode
  rw [parseFields_encodeFields r.fields _ (length_le_encodeFields_length _)]
  simpa using DHTRequest.fromFields_fields_dht r h

/-! ## Request codec -/

/-- Validity of a `ConnectRequest` value: byte fields hold bytes. -/
def ConnectRequest.valid (r : ConnectRequest) : Bool :=
  bytesValid r.peer && r.addrs.all bytesValid

/-- Validity of a `StreamOpenRequest` value. -/
def StreamOpenRequest.valid (r : StreamOpenRequest) : Bool :=
  bytesValid r.peer && r.proto.all bytesValid

/-- Validity of a `StreamHandlerRequest` value. -/
def StreamHandlerRequest.valid (r : StreamHandlerRequest) : Bool :=
  bytesValid r.path && r.proto.all bytesValid

/-- Validity of a `Request` value: every populated payload is valid. -/
def Request.valid (r : Request) : Bool :=
  r.connect.all ConnectRequest.valid
    && r.streamOpen.all StreamOpenRequest.valid
    && r.streamHandler.all StreamHandlerRequest.valid
    && r.dht.all DHTRequest.valid

/-- The wire field records of a `Request`: the type tag followed by each
populated payload as an embedded message, in field-number order. -/
def Request.fields (r : Request) : List (Nat × WireValue) :=
  [(1, .varint r.type.toNat)]
    ++ optMsgField 2 (r.connect.map ConnectRequest.encode)
    ++ optMsgField 3 (r.streamOpen.map StreamOpenRequest.encode)
    ++ optMsgField 4 (r.streamHandler.map StreamHandlerRequest.encode)
    ++ optMsgField 5 (r.dht.map DHTRequest.encode)

/-- Serialize a `Request` message body. -/
def Request.encode (r : Request) : List Nat :=
  encodeFields r.fields

/-- Decoder state while folding over a `Request`'s field records. -/
structure RequestBuilder : Type where
  type? : Option Nat := none
  connect : Option ConnectRequest := none
  streamOpen : Option StreamOpenRequest := none
  streamHandler : Option StreamHandlerRequest := none
  dht : Option DHTRequest := none

def RequestBuilder.step (b : RequestBuilder) :
    Nat × WireValue → Option RequestBuilder
  | (1, .varint v) => some { b with type? := some v }
  | (2, .lengthDelimited bs) =>
      (ConnectRequest.decode bs).map fun c => { b with connect := some c }
  | (3, .lengthDelimited bs) =>
      (StreamOpenRequest.decode bs).map fun c => { b with streamOpen := some c }
  | (4, .lengthDelimited bs) =>
      (StreamHandlerRequest.decode bs).map fun c =>
        { b with streamHandler := some c }
  | (5, .lengthDelimited bs) =>
      (DHTRequest.decode bs).map fun c => { b with dht := some c }
  | _ => none

/-- Assemble a `Request`, rejecting a missing required `type` or an
out-of-range enum value. -/
def Request.fromFields (l : List (Nat × WireValue)) : Option Request := do
  let b ← l.foldlM RequestBuilder.step {}
  match b.type? with
  | some v =>
    match RequestType.ofNat? v with
    | some t => pure ⟨t, b.connect, b.streamOpen, b.streamHandler, b.dht⟩
    | none => none
  | none => none

/-- Parse a `Request` message body. -/
def Request.decode (bs : List Nat) : Option Request :=
  (parseFields bs.length bs).bind Request.fromFields

theorem RequestBuilder.fold_connect (o : Option ConnectRequest)
    (b : RequestBuilder) (hb : b.connect = none) :
    (optMsgField 2 (o.map ConnectRequest.encode)).foldlM RequestBuilder.step b
      = some { b with connect := o } := by
  cases o with
  | none =>
    obtain ⟨t, c, so, sh, d⟩ := b
    simp only at hb
    simp [optMsgField, hb]
  | some c =>
    simp [optMsgField, RequestBuilder.step, ConnectRequest.decode_encode_connect]

theorem RequestBuilder.fold_streamOpen (o : Option StreamOpenRequest)
    (b : RequestBuilder) (hb : b.streamOpen = none) :
    (optMsgField 3 (o.map StreamOpenRequest.encode)).foldlM RequestBuilder.step b
      = some { b with streamOpen := o } := by
  cases o with
  | none =>
    obtain ⟨t, c, so, sh, d⟩ := b
    simp only at hb
    simp [optMsgField, hb]
  | some c =>
    simp [optMsgField, RequestBuilder.step, StreamOpenRequest.decode_encode_streamOpen]

theorem RequestBuilder.fold_streamHandler (o : Option StreamHandlerRequest)
    (b : RequestBuilder) (hb : b.streamHandler = none) :
    (optMsgField 4 (o.map StreamHandlerRequest.encode)).foldlM
        RequestBuilder.step b
      = some { b with streamHandler := o } := by
  cases o with
  | none =>
    obtain ⟨t, c, so, sh, d⟩ := b
    simp only at hb
    simp [optMsgField, hb]
  | some c =>
    simp [optMsgField, RequestBuilder.step, StreamHandlerRequest.decode_encode_streamHandler]

theorem RequestBuilder.fold_dht (o : Option DHTRequest)
    (b : RequestBuilder) (hb : b.dht = none)
    (ho : o.all DHTRequest.valid = true) :
    (optMsgField 5 (o.map DHTRequest.encode)).foldlM RequestBuilder.step b
      = some { b with dht := o } := by
  cases o with
  | none =>
    obtain ⟨t, c, so, sh, d⟩ := b
    simp only at hb
    simp [optMsgField, hb]
  | some c =>
    simp only [Option.all_some] at ho
    simp [optMsgField, RequestBuilder.step, DHTRequest.decode_encode_dht c ho]

theorem Request.fromFields_fields_request (r : Request) (h : r.valid = true) :
    Request.fromFields r.fields = some r := by
  obtain ⟨t, connect, streamOpen, streamHandler, dht⟩ := r
  simp only [Request.valid, Bool.and_eq_true] at h
  obtain ⟨⟨⟨_, _⟩, _⟩, hdht⟩ := h
  unfold Request.fields Request.fromFields
  simp only [List.foldlM_append, List.foldlM_cons, List.foldlM_nil]
  simp only [RequestBuilder.step, Option.bind_eq_bind, Option.some_bind,
    Option.pure_def]
  rw [RequestBuilder.fold_connect _ _ rfl]
  simp only [Option.some_bind]
  rw [RequestBuilder.fold_streamOpen _ _ rfl]
  simp only [Option.some_bind]
  rw [RequestBuilder.fold_streamHandler _ _ rfl]
  simp only [Option.some_bind]
  rw [RequestBuilder.fold_dht _ _ rfl hdht]
  simp only [Option.some_bind]
  simp

/-- Round trip: decoding an encoded valid `Request` body recovers it. -/
theorem Request.decode_encode_request (r : Request) (h : r.valid = true) :
    Request.decode (Request.encode r) = some r := by
  unfold Request.decode Request.encode
  rw [parseFields_encodeFields r.fields _ (length_le_encodeFields_length _)]
  simpa using Request.fromFields_fields_request r h

/-! ## Framing layer

Spec §4.1/§6: each message is prefixed by its own serialized length as a
varint; the decoder rejects a frame longer than the configured maximum
and leaves pipelined trailing bytes unconsumed. -/

/-- Modelled from the spec: the framing codec's encode side (the
length-delimited writer the daemon uses is external library code) —
a varint length prefix, then the message body. -/
def Request.encodeFramed (r : Request) : List Nat :=
  varintEncode (Request.encode r).length ++ Request.encode r

/-- Modelled from the spec: the framing codec's decode side (the
length-delimited reader the daemon uses is external library code) —
read one framed `Request` off the front of a byte stream, enforcing the
configured maximum message size; returns the unconsumed tail. -/
def Request.decodeFramed (maxSize : Nat) (bs : List Nat) :
    Option (Request × List Nat) :=
  match varintDecode bs with
  | none => none
  | some (len, rest) =>
    if len ≤ maxSize then
      if len ≤ rest.length then
        match Request.decode (rest.take len) with
        | some r => some (r, rest.drop len)
        | none => none
      else none
    else none

/-- Framed round trip, preserving pipelined trailing bytes. -/
theorem Request.decodeFramed_encodeFramed (r : Request) (maxSize : Nat)
    (extra : List Nat) (hv : r.valid = true)
    (hm : (Request.encode r).length ≤ maxSize) :
    Request.decodeFramed maxSize (Request.encodeFramed r ++ extra)
      = some (r, extra) := by
  unfold Request.encodeFramed Request.decodeFramed
  rw [List.append_assoc, varintDecode_encode]
  simp only []
  rw [if_pos hm, if_pos (by simp)]
  rw [List.take_left, List.drop_left]
  rw [Request.decode_encode_request r hv]

/-! ## Schema descriptor tables

The field tables of `pb/p2pd.proto`, transcribed message by message:
name, field number, and label of every field. -/

/-- proto2 field label. -/
inductive FieldLabel : Type
  | required
  | optional
  | repeated
deriving DecidableEq, Repr

/-- One field declaration of a proto2 message. -/
structure FieldDescr : Type where
  name : String
  number : Nat
  label : FieldLabel
deriving DecidableEq, Repr

/-- Fields of `message Request`. -/
def requestSchemaFields : List FieldDescr :=
  [⟨"type", 1, .required⟩, ⟨"connect", 2, .optional⟩,
   ⟨"streamOpen", 3, .optional⟩, ⟨"streamHandler", 4, .optional⟩,
   ⟨"dht", 5, .optional⟩]

/-- Fields of `message Response`. -/
def responseSchemaFields : List FieldDescr :=
  [⟨"type", 1, .required⟩, ⟨"error", 2, .optional⟩,
   ⟨"streamInfo", 3, .optional⟩, ⟨"identify", 4, .optional⟩,
   ⟨"dht", 5, .optional⟩, ⟨"peers", 6, .repeated⟩]

/-- Fields of `message DHTRequest`. -/
def dhtRequestSchemaFields : List FieldDescr :=
  [⟨"type", 1, .required⟩, ⟨"peer", 2, .optional⟩, ⟨"cid", 3, .optional⟩,
   ⟨"key", 4, .optional⟩, ⟨"value", 5, .optional⟩, ⟨"count", 6, .optional⟩,
   ⟨"timeout", 7, .optional⟩]

/-- Fields of `message DHTResponse`, the DHT response stream element. -/
def dhtResponseSchemaFields : List FieldDescr :=
  [⟨"type", 1, .required⟩, ⟨"peer", 2, .optional⟩, ⟨"value", 3, .optional⟩]

/-! ## Request dispatcher model

The Request Dispatcher itself is not among the repository's source
files (only the schema and the CLI entrypoint are); the definitions in
this section are modelled from the spec (§3, §4.2, §7). -/

/-- The four payload variants `message Request` declares. -/
inductive PayloadVariant : Type
  | connect
  | streamOpen
  | streamHandler
  | dht
deriving DecidableEq, Repr, Fintype

/-- The payload variants populated in a request, in field order. -/
def Request.populatedVariants (r : Request) : List PayloadVariant :=
  (if r.connect.isSome then [.connect] else [])
    ++ (if r.streamOpen.isSome then [.streamOpen] else [])
    ++ (if r.streamHandler.isSome then [.streamHandler] else [])
    ++ (if r.dht.isSome then [.dht] else [])

/-- The payload variant the schema ties to a request tag, by field name
and type: `connect` for CONNECT, `streamOpen` for STREAM_OPEN,
`streamHandler` for STREAM_HANDLER, `dht` for DHT.  `message Request`
declares no payload field for IDENTIFY or LIST_PEERS. -/
def RequestType.payloadVariant : RequestType → Option PayloadVariant
  | .CONNECT => some .connect
  | .STREAM_OPEN => some .streamOpen
  | .STREAM_HANDLER => some .streamHandler
  | .DHT => some .dht
  | .IDENTIFY => none
  | .LIST_PEERS => none

/-- Modelled from the spec: the dispatcher accepts a request exactly when
the populated payload variants are those its tag calls for — the payload
matching the tag for the four payload-bearing tags, none for IDENTIFY
and LIST_PEERS; any mismatch is a malformed-request error. -/
def Request.wellFormed (r : Request) : Bool :=
  match r.type.payloadVariant with
  | some v => decide (Request.populatedVariants r = [v])
  | none => decide (Request.populatedVariants r = [])

/-- Modelled from the spec: the per-kind required-field validation the
daemon's DHT handler applies before invoking the DHT capability.  The
spec names the constraints for GET_VALUE (key) and PUT_VALUE (key and
value); the remaining kinds require the argument of the §6 capability
they invoke: peer lookups need `peer`, provider and content operations
need `cid`, value searches need `key`. -/
def DHTRequest.requiredFieldsPresent (r : DHTRequest) : Bool :=
  match r.type with
  | .FIND_PEER => r.peer.isSome
  | .FIND_PEERS_CONNECTED_TO_PEER => r.peer.isSome
  | .FIND_PROVIDERS => r.cid.isSome
  | .GET_CLOSEST_PEERS => r.key.isSome
  | .GET_PUBLIC_KEY => r.peer.isSome
  | .GET_VALUE => r.key.isSome
  | .SEARCH_VALUE => r.key.isSome
  | .PUT_VALUE => r.key.isSome && r.value.isSome
  | .PROVIDE => r.cid.isSome

/-! ### Response construction (modelled from spec §4.2, §7) -/

/-- Modelled from the spec: the dispatcher's ERROR response — a
human-readable message and nothing else. -/
def errorResponse (msg : Bytes) : Response :=
  ⟨.ERROR, some ⟨msg⟩, none, none, none, []⟩

/-- Modelled from the spec: the OK response to IDENTIFY — the identify
payload alone. -/
def okIdentifyResponse (info : IdentifyResponse) : Response :=
  ⟨.OK, none, none, some info, none, []⟩

/-- Modelled from the spec: the OK response with empty payload
(CONNECT, STREAM_HANDLER). -/
def okEmptyResponse : Response :=
  ⟨.OK, none, none, none, none, []⟩

/-- Modelled from the spec: the OK response to STREAM_OPEN — the stream
info alone. -/
def okStreamInfoResponse (si : StreamInfo) : Response :=
  ⟨.OK, none, some si, none, none, []⟩

/-- Modelled from the spec: the OK response to LIST_PEERS — the peer
list alone. -/
def okPeerListResponse (ps : List PeerInfo) : Response :=
  ⟨.OK, none, none, none, none, ps⟩

/-- Modelled from the spec: the OK response carrying one DHT stream
element. -/
def okDHTResponse (d : DHTResponse) : Response :=
  ⟨.OK, none, none, none, some d, []⟩

/-- What the Peer Host Facade reported for one request: everything the
dispatcher needs to build the response. -/
structure HostOutcome : Type where
  identify : IdentifyResponse
  dialErr : Option Bytes
  streamOpenResult : Except Bytes StreamInfo
  handlerErr : Option Bytes
  peers : List PeerInfo

/-- The malformed-request error text placeholder. -/
def malformedRequestMsg : Bytes := [109, 97, 108, 102, 111, 114, 109, 101, 100]

/-! ## DHT Response Streamer model (spec §4.4) -/

/-- One result arriving from the underlying DHT lookup: a peer info or a
byte value. -/
inductive DHTStreamValue : Type
  | peerResult (p : PeerInfo)
  | byteResult (b : Bytes)
deriving DecidableEq, Repr

/-- The VALUE stream element carrying one result. -/
def DHTStreamValue.toElement : DHTStreamValue → DHTResponse
  | .peerResult p => ⟨.VALUE, some p, none⟩
  | .byteResult b => ⟨.VALUE, none, some b⟩

/-- Modelled from the spec §4.4: once the underlying operation has begun
producing results, the streamer emits BEGIN, one VALUE element per
result in arrival order — stopping early at the result-count limit —
then a terminal END. -/
def dhtStreamElements (results : List DHTStreamValue) (limit : Option Nat) :
    List DHTResponse :=
  [⟨.BEGIN, none, none⟩]
    ++ ((match limit with
        | some n => results.take n
        | none => results).map DHTStreamValue.toElement)
    ++ [⟨.END, none, none⟩]

/-- Modelled from the spec §4.4: the full per-request output of the DHT
Response Streamer — a single ERROR response when the operation fails
before any result (never entering STREAMING), otherwise the stream
elements, each wrapped as an OK response carrying a DHT payload. -/
def dhtStreamerOutput (earlyFailure : Option Bytes)
    (results : List DHTStreamValue) (limit : Option Nat) : List Response :=
  match earlyFailure with
  | some e => [errorResponse e]
  | none => (dhtStreamElements results limit).map okDHTResponse

/-- Modelled from the spec §4.2 routing table: everything the dispatcher
emits on the connection for one decoded request — malformed requests
fail fast with a single ERROR; unary kinds produce one response;
a DHT request produces the streamer's output. -/
def dispatchResponses (r : Request) (h : HostOutcome)
    (dhtFail : Option Bytes) (results : List DHTStreamValue)
    (limit : Option Nat) : List Response :=
  if Request.wellFormed r = false then [errorResponse malformedRequestMsg]
  else
    match r.type with
    | .IDENTIFY => [okIdentifyResponse h.identify]
    | .CONNECT =>
      match h.dialErr with
      | some e => [errorResponse e]
      | none => [okEmptyResponse]
    | .STREAM_OPEN =>
      match h.streamOpenResult with
      | .error e => [errorResponse e]
      | .ok si => [okStreamInfoResponse si]
    | .STREAM_HANDLER =>
      match h.handlerErr with
      | some e => [errorResponse e]
      | none => [okEmptyResponse]
    | .LIST_PEERS => [okPeerListResponse h.peers]
    | .DHT => dhtStreamerOutput dhtFail results limit

/-- The OK payload kinds a response can carry (spec §3). -/
inductive OkPayloadKind : Type
  | identifyInfo
  | streamInfo
  | dhtPayload
  | peerList
deriving DecidableEq, Repr, Fintype

/-- The OK payload kinds populated in a response. -/
def Response.okPayloadKinds (resp : Response) : List OkPayloadKind :=
  (if resp.identify.isSome then [.identifyInfo] else [])
    ++ (if resp.streamInfo.isSome then [.streamInfo] else [])
    ++ (if resp.dht.isSome then [.dhtPayload] else [])
    ++ (if resp.peers.isEmpty then [] else [.peerList])

/-- The payload kind an OK response to each request type may carry
(spec §4.2 table: CONNECT and STREAM_HANDLER succeed with an empty
payload). -/
def RequestType.okPayloadKind : RequestType → Option OkPayloadKind
  | .IDENTIFY => some .identifyInfo
  | .CONNECT => none
  | .STREAM_OPEN => some .streamInfo
  | .STREAM_HANDLER => none
  | .DHT => some .dhtPayload
  | .LIST_PEERS => some .peerList

/-! ## Daemon startup (`p2pd/main.go`)

`main` is embedded as a function of the parsed flag values and an
`Externals` record abstracting every call into external libraries
(config loading, multiaddr parsing, key generation, daemon
construction …).  Each `log.Fatal` site in `main` becomes a
`MainOutcome.fatal` with the stage that failed; reaching `select {}`
becomes `MainOutcome.running` with the daemon's state. -/

/-- Supported security protocol identifiers, modelled from the library
constants `main.go` compares the `-security` flag against
(`plaintext.ID`, `noise.ID`, `secio.ID`). -/
def plaintextID : String := "/plaintext/1.0.0"

def noiseID : String := "/noise"

def secioID : String := "/secio/1.0.0"

/-- The flags of `p2pd/main.go` the embedded startup depends on, with
their declared default values (`main.go` lines 74–109). -/
structure Flags : Type where
  security : String := ""
  id : String := ""
  hostAddrs : String := ""
  announceAddrs : String := ""
  bootstrapPeers : String := ""
  bootstrapEnabled : Bool := false
  autonat : Bool := false
  pubsubEnabled : Bool := false
  quic : Bool := false
deriving DecidableEq, Repr

/-- Results of the external library calls `main` makes, one field per
call site; `true` in an `…Err` field means that call returned an error.
`keyGenPriv`/`keyGenErr` are the first and third return values of
`crypto.GenerateKeyPairWithReader` (the private key may be absent when
the error is set). -/
structure Externals : Type where
  configLoadErr : Bool := false
  configID : String := ""
  configAutoNat : Bool := false
  configPubSub : Bool := false
  configBootstrapEnabled : Bool := false
  configHasBootstrapPeers : Bool := false
  configHasHostAddrs : Bool := false
  configQUIC : Bool := false
  listenAddrErr : Bool := false
  hostAddrsErr : Bool := false
  announceAddrsErr : Bool := false
  bootstrapPeersErr : Bool := false
  validateErr : Bool := false
  keyGenPriv : Option Nat := none
  keyGenErr : Option String := none
  noiseInitErr : Bool := false
  secioInitErr : Bool := false
  newDaemonErr : Bool := false
  autoNatErr : Bool := false
  pubsubErr : Bool := false
  bootstrapErr : Bool := false
deriving DecidableEq, Repr

/-- The `log.Fatal` sites of `main`, in program order. -/
inductive StartupStage : Type
  | configLoad
  | listenAddrParse
  | hostAddrsParse
  | announceAddrsParse
  | bootstrapPeersParse
  | configValidate
  | noiseInit
  | secioInit
  | securitySelect
  | quicCheck
  | newDaemon
  | enableAutoNAT
  | enablePubsub
  | bootstrapConnect
deriving DecidableEq, Repr, Fintype

/-- The libp2p options `main` accumulates (only the ones the claims
observe are distinguished). -/
inductive Libp2pOpt : Type
  | identity (priv : Option Nat)
  | noSecurity
  | security (protocolID : String)
  | other
deriving DecidableEq, Repr

/-- The state of the daemon once `main` reaches `select {}`: the control
socket is accepting and these values are fixed for the process
lifetime. -/
structure DaemonState : Type where
  /-- The options handed to `p2pd.NewDaemon`; the identity option among
  them determines the daemon's peer id. -/
  opts : List Libp2pOpt
  /-- Value of `c.ID` as assembled from the `-id` flag and the config file; after
  its assignment `main` never reads it. -/
  configID : String
deriving DecidableEq, Repr

/-- Outcome of `main`: a fatal log at some startup stage, or the daemon
accepting connections forever at `select {}`. -/
inductive MainOutcome : Type
  | fatal (stage : StartupStage)
  | running (d : DaemonState)
deriving DecidableEq, Repr

/-- Tail of `main` from the QUIC listen-addr check onward (`main.go` lines
312–415): `NewDaemon`, AutoNAT, pubsub, bootstrap, then `select {}`.
`c.QUIC` and `c.HostAddresses` reflect the config file overlaid by the
`-quic`/`-hostAddrs` flags. -/
def mainPostSecurity (f : Flags) (ext : Externals) (cID : String)
    (opts : List Libp2pOpt) : MainOutcome :=
  if (ext.configQUIC || f.quic)
      && !(if f.hostAddrs ≠ "" then true else ext.configHasHostAddrs) then
    .fatal .quicCheck
  else if ext.newDaemonErr then .fatal .newDaemon
  else if (ext.configAutoNat || f.autonat) && ext.autoNatErr then
    .fatal .enableAutoNAT
  else if (ext.configPubSub || f.pubsubEnabled) && ext.pubsubErr then
    .fatal .enablePubsub
  else if (ext.configBootstrapEnabled || f.bootstrapEnabled)
      && ext.bootstrapErr then
    .fatal .bootstrapConnect
  else .running ⟨opts, cID⟩

/-- The security-protocol selection (`main.go` lines 293–310): the
`-security` value must be one of the three supported protocol IDs, else
`log.Fatalf`; noise/secio transport construction can itself fail
fatally. -/
def mainAfterKeyGen (f : Flags) (ext : Externals) (cID : String)
    (opts : List Libp2pOpt) : MainOutcome :=
  if f.security = plaintextID then
    mainPostSecurity f ext cID (opts ++ [.noSecurity])
  else if f.security = noiseID then
    if ext.noiseInitErr then .fatal .noiseInit
    else mainPostSecurity f ext cID (opts ++ [.security f.security])
  else if f.security = secioID then
    if ext.secioInitErr then .fatal .secioInit
    else mainPostSecurity f ext cID (opts ++ [.security f.security])
  else .fatal .securitySelect

/-- The embedded `main` (`p2pd/main.go` lines 69–415): config assembly
(`c.ID` overlaid from the `-id` flag), flag parsing fatals, validation,
key generation — whose error return `main` never checks (line 273), the
generated key going straight into `libp2p.Identity` — then the security
selection and the rest of startup. -/
def mainStartup (f : Flags) (ext : Externals) : MainOutcome :=
  if ext.configLoadErr then .fatal .configLoad
  else if ext.listenAddrErr then .fatal .listenAddrParse
  else if f.hostAddrs ≠ "" && ext.hostAddrsErr then .fatal .hostAddrsParse
  else if f.announceAddrs ≠ "" && ext.announceAddrsErr then
    .fatal .announceAddrsParse
  else if f.bootstrapPeers ≠ "" && ext.bootstrapPeersErr then
    .fatal .bootstrapPeersParse
  else if ext.validateErr then .fatal .configValidate
  else
    mainAfterKeyGen f ext (if f.id ≠ "" then f.id else ext.configID)
      [Libp2pOpt.identity ext.keyGenPriv]

/-! ## Process lifetime model (spec §7 for the dispatcher side)

The Connection Acceptor and Request Dispatcher are not among the
repository's source files; their containment policy is modelled from
the spec: "all errors are contained to the connection or stream that
produced them … runtime per-request errors never terminate the
process". `main.go` contributes the two modelled facts that every
`log.Fatal` lies before `select {}` and that `select {}` never
returns. -/

/-- One event on the accepting daemon: a decoded request together with
everything external its handling depends on, a frame parse error, or a
client closing its connection. -/
inductive RequestEvent : Type
  | decoded (r : Request) (h : HostOutcome) (dhtFail : Option Bytes)
      (results : List DHTStreamValue) (limit : Option Nat)
  | frameError (msg : Bytes)
  | clientClosed

/-- The process as a whole: starting up, accepting connections, or
terminated by a fatal log. -/
inductive ProcessState : Type
  | accepting (d : DaemonState)
  | terminated (stage : StartupStage)
deriving DecidableEq, Repr

/-- Modelled from the spec §4.2/§7: the responses one event produces and
the process state afterwards.  Request handling — including every
per-request error path — answers on the connection and leaves the
process accepting. -/
def handleEvent (d : DaemonState) (e : RequestEvent) :
    List Response × ProcessState :=
  match e with
  | .decoded r h dhtFail results limit =>
    (dispatchResponses r h dhtFail results limit, .accepting d)
  | .frameError msg => ([errorResponse msg], .accepting d)
  | .clientClosed => ([], .accepting d)

/-- Run the accepting daemon over a sequence of events. -/
def runEvents (d : DaemonState) : List RequestEvent → ProcessState
  | [] => .accepting d
  | e :: es =>
    match handleEvent d e with
    | (_, .accepting d') => runEvents d' es
    | (_, .terminated s) => .terminated s

/-- The whole process: `main` startup, then — if the daemon came up —
the event loop. -/
def runProcess (f : Flags) (ext : Externals) (events : List RequestEvent) :
    ProcessState :=
  match mainStartup f ext with
  | .fatal s => .terminated s
  | .running d => runEvents d events

/-! ## Startup model lemmas -/

/-- The security options appended for a recognised `-security` value. -/
def securityOpts (security : String) : List Libp2pOpt :=
  if security = plaintextID then [Libp2pOpt.noSecurity]
  else [Libp2pOpt.security security]

theorem mainPostSecurity_running (f : Flags) (ext : Externals) (cID : String)
    (opts : List Libp2pOpt) (d : DaemonState)
    (h : mainPostSecurity f ext cID opts = .running d) :
    d.opts = opts ∧ d.configID = cID := by
  unfold mainPostSecurity at h
  split_ifs at h <;> cases h <;> exact ⟨rfl, rfl⟩

theorem mainAfterKeyGen_running (f : Flags) (ext : Externals) (cID : String)
    (opts : List Libp2pOpt) (d : DaemonState)
    (h : mainAfterKeyGen f ext cID opts = .running d) :
    d.opts = opts ++ securityOpts f.security ∧ d.configID = cID := by
  unfold mainAfterKeyGen at h
  by_cases h1 : f.security = plaintextID
  · rw [if_pos h1] at h
    simp only [securityOpts, if_pos h1]
    exact mainPostSecurity_running f ext cID _ d h
  · rw [if_neg h1] at h
    simp only [securityOpts, if_neg h1]
    by_cases h2 : f.security = noiseID
    · rw [if_pos h2] at h
      by_cases hn : ext.noiseInitErr = true
      · rw [if_pos hn] at h
        exact absurd h (by simp)
      · rw [if_neg hn] at h
        exact mainPostSecurity_running f ext cID _ d h
    · rw [if_neg h2] at h
      by_cases h3 : f.security = secioID
      · rw [if_pos h3] at h
        by_cases hs : ext.secioInitErr = true
        · rw [if_pos hs] at h
          exact absurd h (by simp)
        · rw [if_neg hs] at h
          exact mainPostSecurity_running f ext cID _ d h
      · rw [if_neg h3] at h
        exact absurd h (by simp)

/-- A daemon that reached `select {}` holds exactly the identity option
built from the freshly generated key, followed by the security option;
`c.ID` is recorded but never contributes to the options. -/
theorem mainStartup_running_opts (f : Flags) (ext : Externals) (d : DaemonState)
    (h : mainStartup f ext = .running d) :
    d.opts = [Libp2pOpt.identity ext.keyGenPriv] ++ securityOpts f.security
      ∧ d.configID = (if f.id ≠ "" then f.id else ext.configID) := by
  unfold mainStartup at h
  set cID := (if f.id ≠ "" then f.id else ext.configID) with hcid
  split_ifs at h <;> first
    | exact absurd h (by simp)
    | exact mainAfterKeyGen_running f ext _ _ d h

theorem mainAfterKeyGen_invalid_security (f : Flags) (ext : Externals)
    (cID : String) (opts : List Libp2pOpt)
    (h1 : f.security ≠ plaintextID) (h2 : f.security ≠ noiseID)
    (h3 : f.security ≠ secioID) :
    mainAfterKeyGen f ext cID opts = .fatal .securitySelect := by
  unfold mainAfterKeyGen
  rw [if_neg h1, if_neg h2, if_neg h3]

/-- The startup stages that precede `p2pd.NewDaemon`. -/
def preDaemonStages : List StartupStage :=
  [.configLoad, .listenAddrParse, .hostAddrsParse, .announceAddrsParse,
   .bootstrapPeersParse, .configValidate, .securitySelect]

theorem mainStartup_invalid_security (f : Flags) (ext : Externals)
    (h1 : f.security ≠ plaintextID) (h2 : f.security ≠ noiseID)
    (h3 : f.security ≠ secioID) :
    ∃ s, mainStartup f ext = .fatal s ∧ s ∈ preDaemonStages := by
  unfold mainStartup
  split_ifs <;> first
    | exact ⟨_, rfl, by decide⟩
    | exact ⟨.securitySelect,
        mainAfterKeyGen_invalid_security f ext _ _ h1 h2 h3, by decide⟩

/-- The event loop never terminates the process (spec §7 containment). -/
theorem runEvents_eq_accepting (events : List RequestEvent) (d : DaemonState) :
    runEvents d events = .accepting d := by
  induction events with
  | nil => rfl
  | cons e es ih => cases e <;> simp [runEvents, handleEvent, ih]

/-! ## Field-number lemmas tying the codec to the schema tables -/

theorem mem_optMsgField (num : Nat) (o : Option Bytes) (p : Nat × WireValue)
    (hp : p ∈ optMsgField num o) : p.1 = num := by
  cases o <;> simp [optMsgField] at hp <;> simp [hp]

theorem mem_optVarintField (num : Nat) (o : Option Nat) (p : Nat × WireValue)
    (hp : p ∈ optVarintField num o) : p.1 = num := by
  cases o <;> simp [optVarintField] at hp <;> simp [hp]

theorem request_fields_numbers (r : Request) (p : Nat × WireValue)
    (hp : p ∈ Request.fields r) : p.1 ∈ [1, 2, 3, 4, 5] := by
  simp only [Request.fields, List.mem_append, List.mem_singleton] at hp
  rcases hp with ((((hp | hp) | hp) | hp) | hp)
  · simp [hp]
  · simp [mem_optMsgField 2 _ p hp]
  · simp [mem_optMsgField 3 _ p hp]
  · simp [mem_optMsgField 4 _ p hp]
  · simp [mem_optMsgField 5 _ p hp]

theorem dhtRequest_fields_numbers (r : DHTRequest) (p : Nat × WireValue)
    (hp : p ∈ DHTRequest.fields r) : p.1 ∈ [1, 2, 3, 4, 5, 6, 7] := by
  simp only [DHTRequest.fields, List.mem_append, List.mem_singleton] at hp
  rcases hp with ((((((hp | hp) | hp) | hp) | hp) | hp) | hp)
  · simp [hp]
  · simp [mem_optMsgField 2 _ p hp]
  · simp [mem_optMsgField 3 _ p hp]
  · simp [mem_optMsgField 4 _ p hp]
  · simp [mem_optMsgField 5 _ p hp]
  · simp [mem_optVarintField 6 _ p hp]
  · simp [mem_optVarintField 7 _ p hp]

/-! ## Claims -/

/-- Claim C1: For every valid `Request` value `r` — of any of the six
request types and any of the nine DHT subtypes — decoding the framed
encoding of `r` yields `r` again, consuming the whole frame, for any
configured maximum frame size that admits the message. -/
theorem claim_C1_request_decode_encode_roundtrip (r : Request) (maxSize : Nat)
    (hv : r.valid = true) (hm : (Request.encode r).length ≤ maxSize) :
    Request.decodeFramed maxSize (Request.encodeFramed r) = some (r, []) := by
  have h := Request.decodeFramed_encodeFramed r maxSize [] hv hm
  simpa using h

set_option maxRecDepth 8000 in
/-- Witness for C1 at a concrete DHT PUT_VALUE request with every
optional field populated (including a negative `int32` count). -/
theorem claim_C1_request_decode_encode_roundtrip_witness :
    Request.valid ⟨.DHT, none, none, none,
        some ⟨.PUT_VALUE, some [1, 2], some [3], some [104, 105], some [6],
          some (-3), some 700⟩⟩ = true
      ∧ (Request.encode ⟨.DHT, none, none, none,
          some ⟨.PUT_VALUE, some [1, 2], some [3], some [104, 105], some [6],
            some (-3), some 700⟩⟩).length ≤ 100
      ∧ Request.decodeFramed 100 (Request.encodeFramed
          ⟨.DHT, none, none, none,
            some ⟨.PUT_VALUE, some [1, 2], some [3], some [104, 105], some [6],
              some (-3), some 700⟩⟩)
        = some (⟨.DHT, none, none, none,
            some ⟨.PUT_VALUE, some [1, 2], some [3], some [104, 105], some [6],
              some (-3), some 700⟩⟩, []) :=
  ⟨by decide, by decide,
    claim_C1_request_decode_encode_roundtrip _ 100 (by decide) (by decide)⟩

/-- Claim C3, counterexample: the bare IDENTIFY request is well-formed —
the dispatcher serves it — yet `message Request` has no payload variant
for IDENTIFY, so it populates no variant at all: "exactly one payload
variant is populated and it matches the tag" is false for it. -/
theorem claim_C3_counterexample :
    Request.wellFormed ⟨.IDENTIFY, none, none, none, none⟩ = true
      ∧ ¬ ∃ v : PayloadVariant,
          Request.populatedVariants ⟨.IDENTIFY, none, none, none, none⟩ = [v]
            ∧ RequestType.payloadVariant .IDENTIFY = some v := by
  decide

/-- Claim C3, amended: `Request` is a tagged union over exactly the six
types; a well-formed request populates exactly the payload variant the
schema ties to its tag for the four payload-bearing tags and no variant
for IDENTIFY and LIST_PEERS; any mismatch is answered with the
malformed-request ERROR. -/
theorem claim_C3_tag_payload_agreement :
    Fintype.card RequestType = 6
      ∧ (∀ r : Request, Request.wellFormed r = true →
          Request.populatedVariants r
            = (match r.type.payloadVariant with
               | some v => [v]
               | none => []))
      ∧ (∀ (r : Request) (h : HostOutcome) (dhtFail : Option Bytes)
            (results : List DHTStreamValue) (limit : Option Nat),
          Request.wellFormed r = false →
            dispatchResponses r h dhtFail results limit
              = [errorResponse malformedRequestMsg]) := by
  refine ⟨by decide, ?_, ?_⟩
  · intro r h
    unfold Request.wellFormed at h
    cases hv : r.type.payloadVariant <;> rw [hv] at h <;> simpa using h
  · intro r h dhtFail results limit hwf
    unfold dispatchResponses
    rw [if_pos hwf]

/-- Witness for C3's amended statement: a CONNECT request carrying
exactly its connect payload, and a mismatched CONNECT request carrying a
dht payload that is answered with the malformed-request ERROR. -/
theorem claim_C3_tag_payload_agreement_witness :
    Request.populatedVariants ⟨.CONNECT, some ⟨[1], []⟩, none, none, none⟩
        = [PayloadVariant.connect]
      ∧ dispatchResponses ⟨.CONNECT, none, none, none,
            some ⟨.FIND_PEER, some [1], none, none, none, none, none⟩⟩
          ⟨⟨[], []⟩, none, .ok ⟨[], [], []⟩, none, []⟩ none [] none
        = [errorResponse malformedRequestMsg] :=
  ⟨by
    have h := claim_C3_tag_payload_agreement.2.1
      ⟨.CONNECT, some ⟨[1], []⟩, none, none, none⟩ (by decide)
    simpa using h,
   claim_C3_tag_payload_agreement.2.2
      ⟨.CONNECT, none, none, none,
        some ⟨.FIND_PEER, some [1], none, none, none, none, none⟩⟩
      ⟨⟨[], []⟩, none, .ok ⟨[], [], []⟩, none, []⟩ none [] none (by decide)⟩

/-- Claim C4: within one DHT response stream the order is strict — the
single BEGIN element opens the stream and precedes everything else, and
END is terminal: it is the last element, nothing follows it. -/
theorem claim_C4_dht_stream_ordering (results : List DHTStreamValue)
    (limit : Option Nat) :
    (dhtStreamElements results limit).head? = some ⟨.BEGIN, none, none⟩
      ∧ (∀ e ∈ (dhtStreamElements results limit).tail,
          DHTResponse.type e ≠ .BEGIN)
      ∧ (∀ e ∈ (dhtStreamElements results limit).dropLast,
          DHTResponse.type e ≠ .END)
      ∧ (dhtStreamElements results limit).getLast?.map DHTResponse.type
          = some .END := by
  refine ⟨by simp [dhtStreamElements], ?_, ?_, ?_⟩
  · intro e he
    have htl : (dhtStreamElements results limit).tail
        = ((match limit with
            | some n => results.take n
            | none => results).map DHTStreamValue.toElement)
          ++ [⟨.END, none, none⟩] := by
      simp [dhtStreamElements]
    rw [htl] at he
    rcases List.mem_append.mp he with hm | hm
    · obtain ⟨v, hv, hveq⟩ := List.mem_map.mp hm
      subst hveq
      cases v <;> simp [DHTStreamValue.toElement]
    · have heq := List.mem_singleton.mp hm
      subst heq
      simp
  · intro e he
    have hrw : dhtStreamElements results limit
        = (⟨.BEGIN, none, none⟩ :: ((match limit with
            | some n => results.take n
            | none => results).map DHTStreamValue.toElement)) ++ [⟨.END, none, none⟩] := by
      simp [dhtStreamElements]
    rw [hrw, List.dropLast_concat] at he
    simp only [List.mem_cons, List.mem_map] at he
    rcases he with he | he
    · subst he
      simp
    · obtain ⟨v, hv, rfl⟩ := he
      cases v <;> simp [DHTStreamValue.toElement]
  · have hrw : dhtStreamElements results limit
        = (⟨.BEGIN, none, none⟩ :: ((match limit with
            | some n => results.take n
            | none => results).map DHTStreamValue.toElement)) ++ [⟨.END, none, none⟩] := by
      simp [dhtStreamElements]
    rw [hrw, List.getLast?_concat]
    rfl

/-- Witness for C4 at a one-result stream with a limit of 5. -/
theorem claim_C4_dht_stream_ordering_witness :
    (dhtStreamElements [DHTStreamValue.byteResult [7]] (some 5)).head?
        = some ⟨.BEGIN, none, none⟩
      ∧ DHTResponse.type (⟨.VALUE, none, some [7]⟩ : DHTResponse) ≠ .BEGIN :=
  ⟨(claim_C4_dht_stream_ordering [DHTStreamValue.byteResult [7]] (some 5)).1,
   (claim_C4_dht_stream_ordering [DHTStreamValue.byteResult [7]] (some 5)).2.1
     ⟨.VALUE, none, some [7]⟩ (by decide)⟩

/-- Claim C5, counterexample: the DHT response element message
(`DHTResponse`) declares three fields — required `type = 1`, optional
`peer = 2`, optional `value = 3` — not five. -/
theorem claim_C5_counterexample :
    dhtResponseSchemaFields.length = 3 ∧ dhtResponseSchemaFields.length ≠ 5 := by
  decide

/-- Claim C5, amended: the wire schema enumerates six request types, nine
DHT request kinds, and **three** DHT response element fields, with the
transcribed field numbering and required/optional markers; every field
record the request encoders emit uses a field number the corresponding
schema table declares. -/
theorem claim_C5_schema_shape :
    Fintype.card RequestType = 6
      ∧ Fintype.card DHTRequestType = 9
      ∧ dhtResponseSchemaFields.length = 3
      ∧ dhtResponseSchemaFields.map (fun fd => (fd.number, fd.label))
          = [(1, .required), (2, .optional), (3, .optional)]
      ∧ requestSchemaFields.map (fun fd => (fd.number, fd.label))
          = [(1, .required), (2, .optional), (3, .optional), (4, .optional),
             (5, .optional)]
      ∧ dhtRequestSchemaFields.map (fun fd => (fd.number, fd.label))
          = [(1, .required), (2, .optional), (3, .optional), (4, .optional),
             (5, .optional), (6, .optional), (7, .optional)]
      ∧ (∀ (r : Request), ∀ p ∈ Request.fields r,
          p.1 ∈ requestSchemaFields.map FieldDescr.number)
      ∧ (∀ (r : DHTRequest), ∀ p ∈ DHTRequest.fields r,
          p.1 ∈ dhtRequestSchemaFields.map FieldDescr.number) := by
  refine ⟨by decide, by decide, by decide, by decide, by decide, by decide,
    ?_, ?_⟩
  · intro r p hp
    have h := request_fields_numbers r p hp
    simpa [requestSchemaFields] using h
  · intro r p hp
    have h := dhtRequest_fields_numbers r p hp
    simpa [dhtRequestSchemaFields] using h

/-- Witness for C5 at the encoded field records of a concrete request. -/
theorem claim_C5_schema_shape_witness :
    (1, WireValue.varint 1) ∈
        Request.fields ⟨.CONNECT, some ⟨[9], []⟩, none, none, none⟩
      ∧ (1 : Nat) ∈ requestSchemaFields.map FieldDescr.number :=
  ⟨by decide,
   claim_C5_schema_shape.2.2.2.2.2.2.1
     ⟨.CONNECT, some ⟨[9], []⟩, none, none, none⟩ (1, WireValue.varint 1)
     (by decide)⟩

/-- Claim C6: `DHTRequest` is a tagged union over exactly nine operation
kinds, each drawing on the optional fields
{peer, cid, key, value, count, timeout}; validity is per kind —
GET_VALUE requires the key field and PUT_VALUE requires both key and
value. -/
theorem claim_C6_dht_request_kinds_validity :
    Fintype.card DHTRequestType = 9
      ∧ (∀ r : DHTRequest, DHTRequest.requiredFieldsPresent r = true →
          (r.type = .GET_VALUE → r.key.isSome = true)
            ∧ (r.type = .PUT_VALUE →
                r.key.isSome = true ∧ r.value.isSome = true)) := by
  refine ⟨by decide, ?_⟩
  intro r h
  constructor
  · intro ht
    unfold DHTRequest.requiredFieldsPresent at h
    rw [ht] at h
    exact h
  · intro ht
    unfold DHTRequest.requiredFieldsPresent at h
    rw [ht] at h
    simpa using h

/-- Witness for C6 at concrete GET_VALUE and PUT_VALUE requests. -/
theorem claim_C6_dht_request_kinds_validity_witness :
    (⟨.PUT_VALUE, none, none, some [107], some [118], none, none⟩
        : DHTRequest).key.isSome = true
      ∧ (⟨.PUT_VALUE, none, none, some [107], some [118], none, none⟩
          : DHTRequest).value.isSome = true :=
  (claim_C6_dht_request_kinds_validity.2
    ⟨.PUT_VALUE, none, none, some [107], some [118], none, none⟩
    (by decide)).2 rfl

/-! ### Response discipline (C7 support) -/

/-- The payload discipline of spec §3: an ERROR response carries the
message and no OK payload; an OK response carries no error, at most one
OK payload, and only the payload kind its originating request type
calls for. -/
def responseDiscipline (t : RequestType) (resp : Response) : Prop :=
  (resp.type = .ERROR →
    resp.error.isSome = true ∧ Response.okPayloadKinds resp = [])
    ∧ (resp.type = .OK →
        resp.error = none ∧ (Response.okPayloadKinds resp).length ≤ 1
          ∧ ∀ k ∈ Response.okPayloadKinds resp,
              RequestType.okPayloadKind t = some k)

theorem responseDiscipline_error (t : RequestType) (m : Bytes) :
    responseDiscipline t (errorResponse m) := by
  constructor
  · intro _
    exact ⟨rfl, rfl⟩
  · intro hok
    exact absurd hok (by simp [errorResponse])

theorem responseDiscipline_okIdentify (info : IdentifyResponse) :
    responseDiscipline .IDENTIFY (okIdentifyResponse info) := by
  constructor
  · intro hE
    exact absurd hE (by simp [okIdentifyResponse])
  · intro _
    refine ⟨rfl, by simp [okIdentifyResponse, Response.okPayloadKinds], ?_⟩
    intro k hk
    simp only [okIdentifyResponse, Response.okPayloadKinds] at hk
    simp at hk
    simp [hk, RequestType.okPayloadKind]

theorem responseDiscipline_okEmpty (t : RequestType) :
    responseDiscipline t okEmptyResponse := by
  constructor
  · intro hE
    exact absurd hE (by simp [okEmptyResponse])
  · intro _
    refine ⟨rfl, by simp [okEmptyResponse, Response.okPayloadKinds], ?_⟩
    intro k hk
    simp [okEmptyResponse, Response.okPayloadKinds] at hk

theorem responseDiscipline_okStreamInfo (si : StreamInfo) :
    responseDiscipline .STREAM_OPEN (okStreamInfoResponse si) := by
  constructor
  · intro hE
    exact absurd hE (by simp [okStreamInfoResponse])
  · intro _
    refine ⟨rfl, by simp [okStreamInfoResponse, Response.okPayloadKinds], ?_⟩
    intro k hk
    simp only [okStreamInfoResponse, Response.okPayloadKinds] at hk
    simp at hk
    simp [hk, RequestType.okPayloadKind]

theorem responseDiscipline_okPeerList (ps : List PeerInfo) :
    responseDiscipline .LIST_PEERS (okPeerListResponse ps) := by
  constructor
  · intro hE
    exact absurd hE (by simp [okPeerListResponse])
  · intro _
    refine ⟨rfl, ?_, ?_⟩
    · by_cases hp : ps.isEmpty <;>
        simp [okPeerListResponse, Response.okPayloadKinds, hp]
    · intro k hk
      simp only [okPeerListResponse, Response.okPayloadKinds] at hk
      by_cases hp : ps.isEmpty <;> simp [hp] at hk
      simp [hk, RequestType.okPayloadKind]

theorem responseDiscipline_okDHT (el : DHTResponse) :
    responseDiscipline .DHT (okDHTResponse el) := by
  constructor
  · intro hE
    exact absurd hE (by simp [okDHTResponse])
  · intro _
    refine ⟨rfl, by simp [okDHTResponse, Response.okPayloadKinds], ?_⟩
    intro k hk
    simp only [okDHTResponse, Response.okPayloadKinds] at hk
    simp at hk
    simp [hk, RequestType.okPayloadKind]

/-- Claim C7: every response the dispatcher emits for a request obeys the
payload discipline — an ERROR response carries a message and no other
payload; an OK response carries at most one of {identify info, stream
info, DHT payload, peer list}, the one its originating request type
calls for. -/
theorem claim_C7_response_payload_discipline (r : Request) (h : HostOutcome)
    (dhtFail : Option Bytes) (results : List DHTStreamValue)
    (limit : Option Nat) :
    ∀ resp ∈ dispatchResponses r h dhtFail results limit,
      responseDiscipline r.type resp := by
  intro resp hresp
  unfold dispatchResponses at hresp
  by_cases hwf : Request.wellFormed r = false
  · rw [if_pos hwf] at hresp
    have heq := List.mem_singleton.mp hresp
    subst heq
    exact responseDiscipline_error r.type _
  · rw [if_neg hwf] at hresp
    cases ht : r.type <;> rw [ht] at hresp
    · have heq := List.mem_singleton.mp hresp
      subst heq
      exact responseDiscipline_okIdentify h.identify
    · cases hd : h.dialErr <;> rw [hd] at hresp
      · have heq := List.mem_singleton.mp hresp
        subst heq
        exact responseDiscipline_okEmpty _
      · have heq := List.mem_singleton.mp hresp
        subst heq
        exact responseDiscipline_error _ _
    · cases hso : h.streamOpenResult <;> rw [hso] at hresp
      · have heq := List.mem_singleton.mp hresp
        subst heq
        exact responseDiscipline_error _ _
      · have heq := List.mem_singleton.mp hresp
        subst heq
        exact responseDiscipline_okStreamInfo _
    · cases hh : h.handlerErr <;> rw [hh] at hresp
      · have heq := List.mem_singleton.mp hresp
        subst heq
        exact responseDiscipline_okEmpty _
      · have heq := List.mem_singleton.mp hresp
        subst heq
        exact responseDiscipline_error _ _
    · unfold dhtStreamerOutput at hresp
      cases hdf : dhtFail <;> rw [hdf] at hresp
      · obtain ⟨el, _, heq⟩ := List.mem_map.mp hresp
        subst heq
        exact responseDiscipline_okDHT el
      · have heq := List.mem_singleton.mp hresp
        subst heq
        exact responseDiscipline_error _ _
    · have heq := List.mem_singleton.mp hresp
      subst heq
      exact responseDiscipline_okPeerList h.peers

/-- Witness for C7 at a concrete CONNECT request whose dial fails. -/
theorem claim_C7_response_payload_discipline_witness :
    responseDiscipline RequestType.CONNECT (errorResponse [110, 111]) :=
  have happ := claim_C7_response_payload_discipline
    ⟨.CONNECT, some ⟨[1], []⟩, none, none, none⟩
    ⟨⟨[], []⟩, some [110, 111], .ok ⟨[], [], []⟩, none, []⟩ none [] none
  happ (errorResponse [110, 111]) (by decide)

/-- Claim C2, code evaluation at the divergence: whenever startup reaches
the accepting state, the identity option handed to `NewDaemon` holds the
freshly generated key and nothing else — never a key derived from the
`-id`/config identity source, which `mainStartup` records in `c.ID` and
never consults. -/
theorem claim_C2_identity_is_fresh_key (f : Flags) (ext : Externals)
    (d : DaemonState) (h : mainStartup f ext = .running d) :
    Libp2pOpt.identity ext.keyGenPriv ∈ d.opts
      ∧ ∀ k, Libp2pOpt.identity k ∈ d.opts → k = ext.keyGenPriv := by
  obtain ⟨hopts, _⟩ := mainStartup_running_opts f ext d h
  rw [hopts]
  constructor
  · simp
  · intro k hk
    simp only [List.cons_append, List.nil_append, List.mem_cons] at hk
    rcases hk with hk | hk
    · exact Libp2pOpt.identity.inj hk
    · unfold securityOpts at hk
      split_ifs at hk <;> simp at hk

/-- Witness for C2: a successful run with `-id keyfile.pem` supplied
still gets the freshly generated key (42) as its identity. -/
theorem claim_C2_identity_is_fresh_key_witness :
    mainStartup { security := noiseID, id := "keyfile.pem" }
        { keyGenPriv := some 42 }
      = .running ⟨[.identity (some 42), .security noiseID], "keyfile.pem"⟩
      ∧ ∀ k, Libp2pOpt.identity k ∈
          ([.identity (some 42), .security noiseID] : List Libp2pOpt)
          → k = some 42 :=
  ⟨by decide,
   (claim_C2_identity_is_fresh_key
      { security := noiseID, id := "keyfile.pem" } { keyGenPriv := some 42 }
      ⟨[.identity (some 42), .security noiseID], "keyfile.pem"⟩
      (by decide)).2⟩

/-- Claim C8: if the whole process — startup followed by any sequence of
request events, including per-request failures — ends terminated, the
termination is a startup fatal: `mainStartup` failed at that stage.
Once accepting, no event terminates the process. -/
theorem claim_C8_terminates_only_at_startup (f : Flags) (ext : Externals)
    (events : List RequestEvent) (s : StartupStage)
    (h : runProcess f ext events = .terminated s) :
    mainStartup f ext = .fatal s := by
  unfold runProcess at h
  cases hm : mainStartup f ext with
  | fatal s2 =>
    rw [hm] at h
    have h2 : ProcessState.terminated s2 = ProcessState.terminated s := h
    injection h2 with h3
    rw [h3]
  | running d =>
    rw [hm] at h
    have h2 : runEvents d events = ProcessState.terminated s := h
    rw [runEvents_eq_accepting] at h2
    exact absurd h2 (by simp)

/-- Witness for C8: the all-default run (which dies at security
selection) with an empty workload. -/
theorem claim_C8_terminates_only_at_startup_witness :
    runProcess ({} : Flags) ({} : Externals) []
        = .terminated .securitySelect
      ∧ mainStartup ({} : Flags) ({} : Externals) = .fatal .securitySelect :=
  ⟨by decide,
   claim_C8_terminates_only_at_startup ({} : Flags) ({} : Externals) []
     .securitySelect (by decide)⟩

/-- Claim C9: any `-security` value outside the three supported protocol
IDs — the default empty string among them — makes `main` die with a
fatal log at a stage preceding daemon construction, whatever the
externals would have returned; in particular a run with all-default
flags never reaches the accepting state. -/
theorem claim_C9_invalid_security_fatal (f : Flags) (ext : Externals)
    (h1 : f.security ≠ plaintextID) (h2 : f.security ≠ noiseID)
    (h3 : f.security ≠ secioID) :
    (∃ s, mainStartup f ext = .fatal s ∧ s ∈ preDaemonStages)
      ∧ ∀ (ext2 : Externals) (d : DaemonState),
          mainStartup ({} : Flags) ext2 ≠ .running d := by
  refine ⟨mainStartup_invalid_security f ext h1 h2 h3, ?_⟩
  intro ext2 d hrun
  obtain ⟨s, hs, _⟩ := mainStartup_invalid_security ({} : Flags) ext2
    (by decide) (by decide) (by decide)
  rw [hrun] at hs
  cases hs

/-- Witness for C9 at the unsupported value `"tcp"`. -/
theorem claim_C9_invalid_security_fatal_witness :
    (∃ s, mainStartup { security := "tcp" } ({} : Externals) = .fatal s
        ∧ s ∈ preDaemonStages)
      ∧ ∀ (ext2 : Externals) (d : DaemonState),
          mainStartup ({} : Flags) ext2 ≠ .running d :=
  claim_C9_invalid_security_fatal { security := "tcp" } ({} : Externals)
    (by decide) (by decide) (by decide)

/-- Claim C10: the error returned by RSA key generation is discarded
unchecked — startup behaves identically whether or not key generation
reported an error, and proceeds to build the libp2p identity option from
the possibly-nil key instead of terminating there. -/
theorem claim_C10_keygen_error_discarded (f : Flags) (ext : Externals)
    (e : String) :
    mainStartup f { ext with keyGenErr := some e, keyGenPriv := none }
        = mainStartup f { ext with keyGenPriv := none }
      ∧ ∀ d, mainStartup f { ext with keyGenPriv := none } = .running d →
          Libp2pOpt.identity none ∈ d.opts := by
  constructor
  · rfl
  · intro d hd
    obtain ⟨hopts, _⟩ := mainStartup_running_opts f _ d hd
    rw [hopts]
    simp

/-- Witness for C10: a concrete plaintext-security run whose key
generation failed (nil key, error set). -/
theorem claim_C10_keygen_error_discarded_witness :
    mainStartup { security := plaintextID }
        { keyGenErr := some "rng exhausted", keyGenPriv := none }
      = mainStartup { security := plaintextID } { keyGenPriv := none }
      ∧ Libp2pOpt.identity none ∈
          ([.identity none, .noSecurity] : List Libp2pOpt) :=
  ⟨(claim_C10_keygen_error_discarded { security := plaintextID }
      ({} : Externals) "rng exhausted").1,
   (claim_C10_keygen_error_discarded { security := plaintextID }
      ({} : Externals) "rng exhausted").2
     ⟨[.identity none, .noSecurity], ""⟩ (by decide)⟩

end P2pd
